import Mathlib

/-!
Shallow embedding of the OolongScript front-end compiler core
(src/vm/compiler.c) and proofs about the frozen claims.

The compiler source under verification is `src/vm/compiler.c`.  Two pieces
of the repository that `compiler.c` depends on are not part of the provided
sources and are therefore modelled from the specification, with the
modelling choices flagged where they matter:

* the scanner (`scanner.c`): programs are given to the model directly as
  token streams (spec section 4.A describes the token kinds);
* the numeric values of the opcode enumeration (`opcodes.h`): the model
  assigns consecutive values starting from `OP_CONSTANT = 0`, the
  conventional layout of this family of bytecode VMs.  Every result that
  depends on the concrete numbering says so in its documentation.

Machine integers: chunk bytes are `Nat` (the compiler only ever writes
values `< 256`: opcode values, 8-bit indices and `& 0xff`-masked jump
halves).  Numbers in the constant pool are modelled as `Rat`; the claims
only exercise exact small-integer arithmetic, where IEEE-754 doubles and
rationals agree.
-/

namespace OolongC

/-- Token kinds of the scanner (compiler.c uses these; the enumeration is
described in spec section 4.A). -/
inductive TokenType where
  | TOKEN_LEFT_PAREN | TOKEN_RIGHT_PAREN | TOKEN_LEFT_BRACE | TOKEN_RIGHT_BRACE
  | TOKEN_COMMA | TOKEN_DOT | TOKEN_MINUS | TOKEN_PLUS | TOKEN_SEMICOLON
  | TOKEN_SLASH | TOKEN_STAR | TOKEN_PERCENT | TOKEN_STAR_STAR
  | TOKEN_NOT | TOKEN_BANG_EQUAL | TOKEN_EQUAL | TOKEN_EQUAL_EQUAL
  | TOKEN_GREATER | TOKEN_GREATER_EQUAL | TOKEN_LESS | TOKEN_LESS_EQUAL
  | TOKEN_PLUS_EQUALS | TOKEN_MINUS_EQUALS | TOKEN_MULTIPLY_EQUALS
  | TOKEN_DIVIDE_EQUALS | TOKEN_AMPERSAND | TOKEN_CARET | TOKEN_PIPE
  | TOKEN_AMPERSAND_EQUALS | TOKEN_CARET_EQUALS | TOKEN_PIPE_EQUALS
  | TOKEN_DOT_DOT_DOT
  | TOKEN_IDENTIFIER | TOKEN_STRING | TOKEN_NUMBER
  | TOKEN_AND | TOKEN_OR | TOKEN_CLASS | TOKEN_DEF | TOKEN_VAR
  | TOKEN_IF | TOKEN_ELSE | TOKEN_FOR | TOKEN_WHILE | TOKEN_RETURN
  | TOKEN_BREAK | TOKEN_CONTINUE | TOKEN_IMPORT | TOKEN_FROM | TOKEN_AS
  | TOKEN_THIS | TOKEN_SUPER | TOKEN_TRUE | TOKEN_FALSE | TOKEN_NIL
  | TOKEN_ERROR | TOKEN_EOF
  deriving DecidableEq, Repr

/-- A scanned token: kind, lexeme text, and lexeme length in bytes.
Modelled from the spec: the scanner itself (`scanner.c`) is not among the
provided sources, so programs enter the model as token streams.  `length`
is the byte length of the lexeme; it drives the `backTrack` loops in
`expressionStatement` and `statement` (rewinding `length` bytes un-reads
exactly the one token that was just scanned; the EOF token has length 0
and rewinds nothing). -/
structure Token where
  type : TokenType
  text : String
  length : Nat
  deriving DecidableEq, Repr

/-- The EOF sentinel token (zero-length lexeme). -/
def eofToken : Token := ⟨.TOKEN_EOF, "", 0⟩

/-- Build an ordinary token whose length is its text length. -/
def tok (t : TokenType) (s : String) : Token := ⟨t, s, s.length⟩

/-!  ## Opcode numbering

Modelled from the spec: `compiler.c` takes the numeric opcode values from
`opcodes.h`, which is not among the provided sources.  Spec section 6
lists the opcodes without numbering them; the model assigns consecutive
values with `OP_CONSTANT = 0` first, the conventional layout of this VM
family.  All opcodes referenced by `compiler.c` are covered and all values
are below 54, so the `0xff` jump-placeholder bytes never collide with an
opcode.  The C1 result singles out exactly which byte comparisons depend
on this numbering. -/

def OP_CONSTANT : Nat := 0
def OP_NIL : Nat := 1
def OP_TRUE : Nat := 2
def OP_FALSE : Nat := 3
def OP_POP_REPL : Nat := 4
def OP_POP : Nat := 5
def OP_GET_LOCAL : Nat := 6
def OP_SET_LOCAL : Nat := 7
def OP_GET_GLOBAL : Nat := 8
def OP_GET_MODULE : Nat := 9
def OP_DEFINE_MODULE : Nat := 10
def OP_SET_MODULE : Nat := 11
def OP_DEFINE_OPTIONAL : Nat := 12
def OP_GET_UPVALUE : Nat := 13
def OP_SET_UPVALUE : Nat := 14
def OP_GET_PROPERTY : Nat := 15
def OP_GET_PROPERTY_NO_POP : Nat := 16
def OP_SET_PROPERTY : Nat := 17
def OP_SET_CLASS_VAR : Nat := 18
def OP_GET_SUPER : Nat := 19
def OP_EQUAL : Nat := 20
def OP_GREATER : Nat := 21
def OP_LESS : Nat := 22
def OP_ADD : Nat := 23
def OP_SUBTRACT : Nat := 24
def OP_MULTIPLY : Nat := 25
def OP_DIVIDE : Nat := 26
def OP_POW : Nat := 27
def OP_MOD : Nat := 28
def OP_BITWISE_AND : Nat := 29
def OP_BITWISE_XOR : Nat := 30
def OP_BITWISE_OR : Nat := 31
def OP_NOT : Nat := 32
def OP_NEGATE : Nat := 33
def OP_JUMP : Nat := 34
def OP_JUMP_IF_FALSE : Nat := 35
def OP_LOOP : Nat := 36
def OP_BREAK : Nat := 37
def OP_IMPORT : Nat := 38
def OP_IMPORT_VARIABLE : Nat := 39
def OP_IMPORT_FROM : Nat := 40
def OP_IMPORT_END : Nat := 41
def OP_CLASS : Nat := 42
def OP_SUBCLASS : Nat := 43
def OP_END_CLASS : Nat := 44
def OP_METHOD : Nat := 45
def OP_CALL : Nat := 46
def OP_INVOKE : Nat := 47
def OP_INVOKE_INTERNAL : Nat := 48
def OP_SUPER : Nat := 49
def OP_CLOSURE : Nat := 50
def OP_CLOSE_UPVALUE : Nat := 51
def OP_RETURN : Nat := 52
def OP_EMPTY : Nat := 53

/-- The `CLASS_DEFAULT` class-kind byte (emitted after OP_CLASS/OP_SUBCLASS).
Modelled from the spec (the enum lives outside the provided sources). -/
def CLASS_DEFAULT : Nat := 0

/-- Runtime values as far as the compiler constructs them: numbers are
modelled as exact rationals (the claims only exercise small-integer
arithmetic, where doubles and rationals agree), strings, nil, booleans,
and function objects of which `getArgCount` only ever reads the upvalue
count. -/
inductive Value where
  | number (q : Rat)
  | str (s : String)
  | vnil
  | boolean (b : Bool)
  | fn (upvalueCount : Nat)
  deriving DecidableEq, Repr

/-- `AS_NUMBER`: the compiler applies it only to values it has just
checked to be number constants; on other variants C reads garbage, which
the model collapses to 0 (never exercised on a non-number). -/
def asNumber : Value → Rat
  | .number q => q
  | _ => 0

/-- A chunk: instruction bytes plus constant pool.  `count` in C always
equals the length here: the folding paths that decrement `count` without
erasing the array are modelled by truncating, because the next
`writeChunk` overwrites the stale bytes in C. -/
structure Chunk where
  code : List Nat
  constants : List Value
  deriving DecidableEq, Repr

def writeChunkB (c : Chunk) (b : Nat) : Chunk :=
  { c with code := c.code ++ [b] }

/-- `addConstant`: append, return the new index (no dedup at this level). -/
def addConstantC (c : Chunk) (v : Value) : Nat × Chunk :=
  (c.constants.length, { c with constants := c.constants ++ [v] })

/-!  ## Locals, upvalues and the closure resolver

These mirror `Local`, `Upvalue`, `resolveLocal`, `addUpvalue` and
`resolveUpvalue` from compiler.c.  The chain of enclosing compilers is a
list of frames, innermost first. -/

structure Local where
  name : String
  depth : Int
  isUpvalue : Bool
  constant : Bool
  deriving DecidableEq, Repr

structure UpvalueRec where
  index : Nat
  isLocal : Bool
  constant : Bool
  deriving DecidableEq, Repr

/-- One compiler's scope data as the resolver sees it. -/
structure Frame where
  locals : List Local
  upvalues : List UpvalueRec
  deriving DecidableEq, Repr

/-- The scan inside `resolveLocal`: C walks `i` from `localCount-1` down
and returns the first hit, i.e. the match with the highest index.
`lastMatch name ls i` returns that highest index (offset by `i`) together
with the local. -/
def lastMatch (name : String) : List Local → Nat → Option (Nat × Local)
  | [], _ => none
  | l :: rest, i =>
    match lastMatch name rest (i + 1) with
    | some r => some r
    | none => if l.name = name then some (i, l) else none

/-- `resolveLocal`: returns the slot (or none for -1) and whether the
"Cannot read local variable in its own initializer." error is raised.
C raises it only when `!inFunction && local->depth == -1`, and still
returns the slot in that case. -/
def resolveLocalM (locals : List Local) (name : String) (inFunction : Bool) :
    Option Nat × Bool :=
  match lastMatch name locals 0 with
  | some (i, l) => (some i, !inFunction && l.depth = -1)
  | none => (none, false)

/-- The scan inside `addUpvalue` looking for an existing `(index, isLocal)`
pair (the `constant` flag is not compared, exactly as in C). -/
def findPairIdx (index : Nat) (isLocal : Bool) : List UpvalueRec → Option Nat
  | [] => none
  | u :: rest =>
    if u.index = index ∧ u.isLocal = isLocal then some 0
    else (findPairIdx index isLocal rest).map (· + 1)

/-- `addUpvalue`: reuse an existing entry, or append a new one; at the
256-entry cap C reports "Too many closure variables in function." and
returns index 0.  Result: (returned index, updated frame, error raised). -/
def addUpvalueM (f : Frame) (index : Nat) (isLocal constant : Bool) :
    Nat × Frame × Bool :=
  match findPairIdx index isLocal f.upvalues with
  | some i => (i, f, false)
  | none =>
    if f.upvalues.length = 256 then (0, f, true)
    else (f.upvalues.length,
          { f with upvalues := f.upvalues ++ [⟨index, isLocal, constant⟩] },
          false)

/-- Mark the local in slot `i` as upvalue-captured
(`compiler->enclosing->locals[local].isUpvalue = true`). -/
def setLocalCaptured : List Local → Nat → List Local
  | [], _ => []
  | l :: rest, 0 => { l with isUpvalue := true } :: rest
  | l :: rest, n + 1 => l :: setLocalCaptured rest n

/-- `resolveUpvalue compiler name` on the chain of enclosing frames
(innermost enclosing first).  Returns (index or none for -1, updated
current frame, updated enclosing chain, any error raised).  Faithful to
the C evaluation order: the inner `resolveLocal` runs with
`inFunction = true`; on the recursive path the `constant` flag is read
from the *updated* enclosing frame's upvalue, after the recursive call
returned. -/
def resolveUpvalueM : Frame → List Frame → String → Option Nat × Frame × List Frame × Bool
  | cur, [], _ => (none, cur, [], false)
  | cur, e :: rest, name =>
    match resolveLocalM e.locals name true with
    | (some l, lerr) =>
      match addUpvalueM cur l true (e.locals.getD l ⟨"", 0, false, false⟩).constant with
      | (i, cur2, aerr) =>
        (some i, cur2, { e with locals := setLocalCaptured e.locals l } :: rest, lerr || aerr)
    | (none, _) =>
      match resolveUpvalueM e rest name with
      | (some u, e2, rest2, err1) =>
        match addUpvalueM cur u false (e2.upvalues.getD u ⟨0, false, false⟩).constant with
        | (i, cur2, aerr) => (some i, cur2, e2 :: rest2, err1 || aerr)
      | (none, e2, rest2, err1) => (none, cur, e2 :: rest2, err1)

/-!  ## Pipeline state

The end-to-end model of `compile(vm, module, source)` for the fragment the
claims exercise.  A single top-level compiler frame is live (none of the
claim programs declare nested functions), but the frame carries an
`enclosing` chain so that `namedVariable` calls the same resolver as the
C code does. -/

/-- Compile-error messages reported through `errorAt` (diagnostic text is
identified by constructor; the wording is in compiler.c). -/
inductive ErrMsg where
  | expectExpression                      -- "Expect expression."
  | expectSemicolonAfterExpression        -- "Expect ';' after expression."
  | invalidAssignmentTarget               -- "Invalid assignment target."
  | cannotBreakOutsideLoop                -- "Cannot utilise 'break' outside of a loop."
  | cannotContinueOutsideLoop             -- "Cannot utilise 'continue' outside of a loop."
  | expectedSemicolonAfterBreak           -- "Expected semicolon after break"
  | expectSemicolonAfterContinue          -- "Expect ';' after 'continue'."
  | expectSemicolonAfterImport            -- "Expect ';' after import."
  | expectImportAlias                     -- "Expect import alias."
  | expectLeftParenAfterWhile             -- "Expect '(' after 'while'."
  | expectRightParenAfterCondition        -- "Expect ')' after condition."
  | expectRightParenAfterExpression       -- "Expect ')' after expression."
  | expectRightBraceAfterBlock            -- "Expect '}' after block."
  | cannotReadLocalInOwnInitializer       -- "Cannot read local variable in its own initializer."
  | cannotAssignToConstant                -- "Cannot assign to a constant."
  | alreadyDeclaredInScope                -- "Variable with this name already declared in this scope."
  | tooManyLocals                         -- "Too many local variables in function."
  | tooManyClosureVariables               -- "Too many closure variables in function."
  | tooManyConstants                      -- "Too many constants in one chunk."
  | tooMuchCodeToJump                     -- "Too much code to jump over."
  | loopBodyTooLarge                      -- "Loop body too large."
  | errorToken                            -- scanner TOKEN_ERROR diagnostic
  deriving DecidableEq, Repr

/-- `FunctionType` from compiler.h (values per the source's usage). -/
inductive FunctionType where
  | TYPE_FUNCTION | TYPE_INITIALIZER | TYPE_METHOD | TYPE_STATIC
  | TYPE_ABSTRACT | TYPE_ARROW_FUNCTION | TYPE_TOP_LEVEL
  deriving DecidableEq, Repr

/-- A `Loop` record (`start`, `scopeDepth`, `body`, `end`; `end` is a Lean
keyword so the field is `endOffset`, holding -1 or the placeholder
offset).  `body`/`endOffset` are uninitialized in C until assigned; the
model uses 0 / -1 defaults that are always overwritten before being read. -/
structure LoopRec where
  start : Nat
  scopeDepth : Int
  body : Nat
  endOffset : Int
  deriving DecidableEq, Repr

/-- The compiler record for the function currently being compiled. -/
structure CompilerSt where
  chunk : Chunk
  stringConstants : List (String × Nat)
  locals : List Local
  upvalues : List UpvalueRec
  enclosing : List Frame
  scopeDepth : Int
  loops : List LoopRec
  ftype : FunctionType
  deriving DecidableEq, Repr

/-- The slice of VM state the compiler reads: REPL flag, the names present
in `vm->globals` (built-ins), and the names in `vm->constants` (module
constants). -/
structure VMSt where
  repl : Bool
  globals : List String
  constantsTab : List String
  deriving DecidableEq, Repr

/-- Parser state: the token stream stands in for the scanner (see
`Token`); `pos` is the index of the next unread token. -/
structure ParserSt where
  tokens : List Token
  pos : Nat
  current : Token
  previous : Token
  hadError : Bool
  panicMode : Bool
  errors : List ErrMsg
  deriving DecidableEq, Repr

structure St where
  vm : VMSt
  parser : ParserSt
  comp : CompilerSt
  deriving DecidableEq, Repr

/-- Computation outcomes: `ok` is normal control flow, `crash` marks
reaching undefined behavior in the C source (a NULL dereference), `unsup`
marks leaving the modelled fragment (or fuel exhaustion). -/
inductive Out (α : Type) where
  | ok (a : α)
  | crash
  | unsup
  deriving DecidableEq, Repr

def CompM (α : Type) : Type := St → Out (α × St)

instance : Monad CompM where
  pure a := fun s => .ok (a, s)
  bind m f := fun s =>
    match m s with
    | .ok (a, s2) => f a s2
    | .crash => .crash
    | .unsup => .unsup

def getSt : CompM St := fun s => .ok (s, s)

def modifySt (f : St → St) : CompM Unit := fun s => .ok ((), f s)

def crashM {α : Type} : CompM α := fun _ => .crash

def unsupM {α : Type} : CompM α := fun _ => .unsup

/-!  ## Parser primitives -/

/-- `scanToken`: at the end of input the scanner keeps returning the EOF
token without advancing. -/
def scanT (p : ParserSt) : Token × ParserSt :=
  match p.tokens.get? p.pos with
  | some t => (t, { p with pos := p.pos + 1 })
  | none => (eofToken, p)

/-- `advance`: shift current into previous and scan the next token.  The
C loop that skips `TOKEN_ERROR` tokens (reporting each) is omitted: the
modelled token streams never contain `TOKEN_ERROR`, since the scanner is
not among the provided sources. -/
def advanceP (p : ParserSt) : ParserSt :=
  let p1 := { p with previous := p.current }
  let (t, p2) := scanT p1
  { p2 with current := t }

/-- `errorAt`: suppressed in panic mode, otherwise records the diagnostic
and sets `panicMode` and `hadError`. -/
def errorAtP (p : ParserSt) (m : ErrMsg) : ParserSt :=
  if p.panicMode then p
  else { p with panicMode := true, hadError := true, errors := p.errors ++ [m] }

def advanceM : CompM Unit := modifySt (fun s => { s with parser := advanceP s.parser })

/-- `error(parser, msg)`: report at the previous token. -/
def errorM (m : ErrMsg) : CompM Unit :=
  modifySt (fun s => { s with parser := errorAtP s.parser m })

/-- `errorAtCurrent(parser, msg)`: report at the current token (same state
effect in the model; the distinction is only in the printed location). -/
def errorAtCurrentM (m : ErrMsg) : CompM Unit := errorM m

def checkM (t : TokenType) : CompM Bool := do
  let s ← getSt
  pure (s.parser.current.type = t)

def consumeM (t : TokenType) (m : ErrMsg) : CompM Unit := do
  if (← checkM t) then advanceM else errorAtCurrentM m

def matchM (t : TokenType) : CompM Bool := do
  if (← checkM t) then do
    advanceM
    pure true
  else pure false

/-- The `for (i = 0; i < parser->current.length; ++i) backTrack(...)`
idiom: rewinding the current token's byte length un-reads exactly that
token (the scanner position sits right after its lexeme), and rewinds
nothing for the zero-length EOF token. -/
def backTrackP (p : ParserSt) : ParserSt :=
  { p with pos := p.pos - (if p.current.length = 0 then 0 else 1) }

def backTrackCurrentM : CompM Unit :=
  modifySt (fun s => { s with parser := backTrackP s.parser })

/-!  ## Emitter -/

def emitByteM (b : Nat) : CompM Unit :=
  modifySt (fun s => { s with comp := { s.comp with chunk := writeChunkB s.comp.chunk b } })

def emitBytesM (b1 b2 : Nat) : CompM Unit := do
  emitByteM b1
  emitByteM b2

/-- `emitJump`: op plus two 0xff placeholder bytes; returns the offset of
the first placeholder (count - 2). -/
def emitJumpM (instruction : Nat) : CompM Nat := do
  emitByteM instruction
  emitByteM 0xff
  emitByteM 0xff
  let s ← getSt
  pure (s.comp.chunk.code.length - 2)

/-- `emitLoop`: backward jump to `loopStart`. -/
def emitLoopM (loopStart : Nat) : CompM Unit := do
  emitByteM OP_LOOP
  let s ← getSt
  let offset := s.comp.chunk.code.length - loopStart + 2
  if offset > 65535 then errorM .loopBodyTooLarge
  emitByteM ((offset >>> 8) &&& 0xff)
  emitByteM (offset &&& 0xff)

/-- `patchJump`: write the big-endian distance from the placeholder to the
current end of code.  All call sites patch placeholders that lie before
the current count, so the `Nat` subtraction matches the C `int`. -/
def patchJumpM (offset : Nat) : CompM Unit := do
  let s ← getSt
  let jump := s.comp.chunk.code.length - offset - 2
  if jump > 65535 then errorM .tooMuchCodeToJump
  modifySt (fun s2 =>
    { s2 with comp := { s2.comp with chunk :=
        { s2.comp.chunk with code :=
            (s2.comp.chunk.code.set offset ((jump >>> 8) &&& 0xff)).set (offset + 1) (jump &&& 0xff) } } })

/-- `makeConstant`: index above 255 reports "Too many constants in one
chunk." and yields 0. -/
def makeConstantM (v : Value) : CompM Nat := do
  let s ← getSt
  let (constant, chunk2) := addConstantC s.comp.chunk v
  modifySt (fun s2 => { s2 with comp := { s2.comp with chunk := chunk2 } })
  if constant > 255 then do
    errorM .tooManyConstants
    pure 0
  else pure constant

def emitConstantM (v : Value) : CompM Unit := do
  let c ← makeConstantM v
  emitBytesM OP_CONSTANT c

/-- `emitReturn`: initializers return `this` (slot 0), everything else nil. -/
def emitReturnM : CompM Unit := do
  let s ← getSt
  if s.comp.ftype = .TYPE_INITIALIZER then emitBytesM OP_GET_LOCAL 0
  else emitByteM OP_NIL
  emitByteM OP_RETURN

/-- `identifierConstant`: per-function dedup through `stringConstants`. -/
def identifierConstantM (name : String) : CompM Nat := do
  let s ← getSt
  match s.comp.stringConstants.lookup name with
  | some i => pure i
  | none => do
    let index ← makeConstantM (.str name)
    modifySt (fun s2 =>
      { s2 with comp := { s2.comp with stringConstants := s2.comp.stringConstants ++ [(name, index)] } })
    pure index

/-!  ## Scopes, locals, variables -/

def beginScopeM : CompM Unit :=
  modifySt (fun s => { s with comp := { s.comp with scopeDepth := s.comp.scopeDepth + 1 } })

/-- The pop bytes emitted while locals (given innermost-first, i.e. the
reversed locals stack) are deeper than `d`: `OP_CLOSE_UPVALUE` for
captured locals, `OP_POP` otherwise. -/
def popsRev : List Local → Int → List Nat
  | [], _ => []
  | l :: rest, d =>
    if l.depth > d then (if l.isUpvalue then OP_CLOSE_UPVALUE else OP_POP) :: popsRev rest d
    else []

/-- `endScope`: decrement the depth, then pop (and discard) the locals
that are now too deep, in reverse declaration order. -/
def endScopeM : CompM Unit := do
  modifySt (fun s => { s with comp := { s.comp with scopeDepth := s.comp.scopeDepth - 1 } })
  let s ← getSt
  let popped := popsRev s.comp.locals.reverse s.comp.scopeDepth
  popped.forM emitByteM
  modifySt (fun s2 =>
    { s2 with comp := { s2.comp with
        locals := (s2.comp.locals.reverse.drop popped.length).reverse } })

def addLocalM (name : Token) : CompM Unit := do
  let s ← getSt
  if s.comp.locals.length = 256 then errorM .tooManyLocals
  else modifySt (fun s2 =>
    { s2 with comp := { s2.comp with locals := s2.comp.locals ++ [⟨name.text, -1, false, false⟩] } })

/-- The duplicate scan in `declareVariable`: walk the locals from the top,
stop at the first one that is defined in an outer scope, flag a clash on
the way (given the reversed locals stack). -/
def dupInScope (name : String) (d : Int) : List Local → Bool
  | [] => false
  | l :: rest =>
    if l.depth ≠ -1 ∧ l.depth < d then false
    else (l.name = name) || dupInScope name d rest

/-- `declareVariable`: module level is implicit; otherwise report a
same-scope clash and push the (uninitialized, depth -1) local. -/
def declareVariableM (name : Token) : CompM Unit := do
  let s ← getSt
  if s.comp.scopeDepth = 0 then pure ()
  else do
    if dupInScope name.text s.comp.scopeDepth s.comp.locals.reverse then
      errorM .alreadyDeclaredInScope
    addLocalM name

/-- `parseVariable` (the `constant` argument is UNUSED in the source). -/
def parseVariableM (errMsg : ErrMsg) (constant : Bool) : CompM Nat := do
  let _ := constant
  consumeM .TOKEN_IDENTIFIER errMsg
  let s ← getSt
  if s.comp.scopeDepth = 0 then identifierConstantM s.parser.previous.text
  else do
    declareVariableM s.parser.previous
    pure 0

def asString : Value → String
  | .str s => s
  | _ => ""

/-- Mark the newest local as defined at the current depth with its const
flag (`compiler->locals[compiler->localCount - 1]`). -/
def setLastDefined : List Local → Int → Bool → List Local
  | [], _, _ => []
  | [l], d, c => [{ l with depth := d, constant := c }]
  | l :: rest, d, c => l :: setLastDefined rest d c

/-- `defineVariable`: module level emits `OP_DEFINE_MODULE` (recording the
name in `vm->constants` when const); local level marks the slot defined. -/
def defineVariableM (global : Nat) (constant : Bool) : CompM Unit := do
  let s ← getSt
  if s.comp.scopeDepth = 0 then do
    if constant then
      modifySt (fun s2 =>
        { s2 with vm := { s2.vm with constantsTab :=
            s2.vm.constantsTab ++ [asString (s2.comp.chunk.constants.getD global .vnil)] } })
    emitBytesM OP_DEFINE_MODULE global
  else
    modifySt (fun s2 =>
      { s2 with comp := { s2.comp with
          locals := setLastDefined s2.comp.locals s2.comp.scopeDepth constant } })

/-- `checkConst`: reject writes through a const local, upvalue, or
module-level name registered in `vm->constants`. -/
def checkConstM (setOp : Nat) (arg : Nat) : CompM Unit := do
  let s ← getSt
  if setOp = OP_SET_LOCAL then
    if (s.comp.locals.getD arg ⟨"", 0, false, false⟩).constant then
      errorM .cannotAssignToConstant
    else pure ()
  else if setOp = OP_SET_UPVALUE then
    if (s.comp.upvalues.getD arg ⟨0, false, false⟩).constant then
      errorM .cannotAssignToConstant
    else pure ()
  else if setOp = OP_SET_MODULE then
    if asString (s.comp.chunk.constants.getD arg .vnil) ∈ s.vm.constantsTab then
      errorM .cannotAssignToConstant
    else pure ()
  else pure ()

/-!  ## The Pratt table

The function pointers of the C `rules` array are represented by tags and
a dispatcher inside the mutual recursion; entries the source leaves out
of the designated initializer are zero-initialized in C, i.e.
`{NULL, NULL, PREC_NONE}`. -/

def PREC_NONE : Nat := 0
def PREC_ASSIGNMENT : Nat := 1
def PREC_OR : Nat := 2
def PREC_AND : Nat := 3
def PREC_EQUALITY : Nat := 4
def PREC_COMPARISON : Nat := 5
def PREC_TERM : Nat := 6
def PREC_FACTOR : Nat := 7
def PREC_INDICES : Nat := 8
def PREC_UNARY : Nat := 9
def PREC_CALL : Nat := 10
def PREC_PRIMARY : Nat := 11

inductive PrefixFnT where
  | pGrouping | pUnary | pVariable | pNumber | pString | pLiteral
  | pSuper | pThis | pNone
  deriving DecidableEq, Repr

inductive InfixFnT where
  | iBinary | iAnd | iOr | iCall | iDot | iNone
  deriving DecidableEq, Repr

structure ParseRule where
  prefixFn : PrefixFnT
  infixFn : InfixFnT
  prec : Nat
  deriving DecidableEq, Repr

def getRule : TokenType → ParseRule
  | .TOKEN_LEFT_PAREN => ⟨.pGrouping, .iCall, PREC_CALL⟩
  | .TOKEN_DOT => ⟨.pNone, .iDot, PREC_CALL⟩
  | .TOKEN_MINUS => ⟨.pUnary, .iBinary, PREC_TERM⟩
  | .TOKEN_PLUS => ⟨.pNone, .iBinary, PREC_TERM⟩
  | .TOKEN_SLASH => ⟨.pNone, .iBinary, PREC_FACTOR⟩
  | .TOKEN_STAR => ⟨.pNone, .iBinary, PREC_FACTOR⟩
  | .TOKEN_NOT => ⟨.pUnary, .iNone, PREC_NONE⟩
  | .TOKEN_BANG_EQUAL => ⟨.pNone, .iBinary, PREC_EQUALITY⟩
  | .TOKEN_EQUAL_EQUAL => ⟨.pNone, .iBinary, PREC_EQUALITY⟩
  | .TOKEN_GREATER => ⟨.pNone, .iBinary, PREC_COMPARISON⟩
  | .TOKEN_GREATER_EQUAL => ⟨.pNone, .iBinary, PREC_COMPARISON⟩
  | .TOKEN_LESS => ⟨.pNone, .iBinary, PREC_COMPARISON⟩
  | .TOKEN_LESS_EQUAL => ⟨.pNone, .iBinary, PREC_COMPARISON⟩
  | .TOKEN_IDENTIFIER => ⟨.pVariable, .iNone, PREC_NONE⟩
  | .TOKEN_STRING => ⟨.pString, .iNone, PREC_NONE⟩
  | .TOKEN_NUMBER => ⟨.pNumber, .iNone, PREC_NONE⟩
  | .TOKEN_AND => ⟨.pNone, .iAnd, PREC_AND⟩
  | .TOKEN_FALSE => ⟨.pLiteral, .iNone, PREC_NONE⟩
  | .TOKEN_NIL => ⟨.pLiteral, .iNone, PREC_NONE⟩
  | .TOKEN_OR => ⟨.pNone, .iOr, PREC_OR⟩
  | .TOKEN_SUPER => ⟨.pSuper, .iNone, PREC_NONE⟩
  | .TOKEN_THIS => ⟨.pThis, .iNone, PREC_NONE⟩
  | .TOKEN_TRUE => ⟨.pLiteral, .iNone, PREC_NONE⟩
  | .TOKEN_PERCENT => ⟨.pNone, .iBinary, PREC_FACTOR⟩
  | .TOKEN_STAR_STAR => ⟨.pNone, .iBinary, PREC_INDICES⟩
  | _ => ⟨.pNone, .iNone, PREC_NONE⟩

/-!  ## Constant folding -/

/-- Write a constant-pool slot. -/
def setConstAt (cs : List Value) (i : Nat) (v : Value) : List Value := cs.set i v

/-- `foldBinary`: both operands must sit on the chunk tail as two
`OP_CONSTANT` instructions; fold `+ - * /`, truncating one pool slot and
two code bytes.  `none` means the C function returned false without
touching the chunk.  (A tail shorter than 4 bytes cannot pass both
`OP_CONSTANT` checks against real emissions; the model returns `none`
there.) -/
def foldBinaryC (operatorType : TokenType) (chunk : Chunk) : Option Chunk :=
  let foldOp (f : Rat → Rat → Rat) : Option Chunk :=
    let n := chunk.code.length
    if n < 4 then none
    else
      let index := chunk.code.getD (n - 1) 0
      let constant := chunk.code.getD (n - 3) 0
      if chunk.code.getD (n - 2) 0 ≠ OP_CONSTANT then none
      else if chunk.code.getD (n - 4) 0 ≠ OP_CONSTANT then none
      else
        let a := asNumber (chunk.constants.getD constant .vnil)
        let b := asNumber (chunk.constants.getD index .vnil)
        some { code := chunk.code.dropLast.dropLast,
               constants := (setConstAt chunk.constants constant (.number (f a b))).dropLast }
  match operatorType with
  | .TOKEN_PLUS => foldOp (· + ·)
  | .TOKEN_MINUS => foldOp (· - ·)
  | .TOKEN_STAR => foldOp (· * ·)
  | .TOKEN_SLASH => foldOp (· / ·)
  | _ => none

/-- `foldUnary`: `not` flips a just-emitted `OP_TRUE`/`OP_FALSE`; unary
minus negates the constant behind a just-emitted number literal — in both
cases judged by the *token* that ended the operand, exactly as in the
source. -/
def foldUnaryC (operatorType valueToken : TokenType) (chunk : Chunk) : Option Chunk :=
  let n := chunk.code.length
  match operatorType with
  | .TOKEN_NOT =>
    if valueToken = .TOKEN_TRUE then
      some { chunk with code := chunk.code.set (n - 1) OP_FALSE }
    else if valueToken = .TOKEN_FALSE then
      some { chunk with code := chunk.code.set (n - 1) OP_TRUE }
    else none
  | .TOKEN_MINUS =>
    if valueToken = .TOKEN_NUMBER then
      let constant := chunk.code.getD (n - 1) 0
      let v := asNumber (chunk.constants.getD constant .vnil)
      some { chunk with constants := setConstAt chunk.constants constant (.number (-v)) }
    else none
  | _ => none

/-!  ## Number literals -/

def natOfDigits : List Char → Nat :=
  List.foldl (fun a c => a * 10 + (c.toNat - 48)) 0

/-- `parseNumber`: strip underscores, then read the decimal literal.  The
C code hands the stripped lexeme to `strtod`; the model evaluates plain
`digits[.digits]` literals exactly (the only shapes the claims use). -/
def parseNumberV (s : String) : Rat :=
  let cs := s.toList.filter (fun c => c ≠ '_')
  let intPart := cs.takeWhile (fun c => c.isDigit)
  let rest := cs.drop intPart.length
  let fracPart :=
    if rest.head? = some '.' then (rest.drop 1).takeWhile (fun c => c.isDigit) else []
  mkRat (Int.ofNat (natOfDigits intPart * 10 ^ fracPart.length + natOfDigits fracPart))
    (10 ^ fracPart.length)

/-!  ## getArgCount and the endLoop break walk -/

/-- `getArgCount(code, constants, ip)`, byte for byte from the source:
note it reports 2 operand bytes for the whole `OP_CONSTANT` family even
though the emitter writes those instructions with a single operand byte,
and it reaches the final `return 0` for `OP_SUBTRACT`, `OP_DIVIDE`,
`OP_SET_PROPERTY`, `OP_GET_PROPERTY_NO_POP`, `OP_SUBCLASS` and
`OP_INVOKE_INTERNAL`. -/
def getArgCount (code : List Nat) (constants : List Value) (ip : Nat) : Nat :=
  let op := code.getD ip 0
  if op ∈ [OP_NIL, OP_TRUE, OP_FALSE, OP_POP, OP_EQUAL, OP_GREATER, OP_LESS,
           OP_ADD, OP_MULTIPLY, OP_NOT, OP_POW, OP_MOD, OP_NEGATE,
           OP_CLOSE_UPVALUE, OP_RETURN, OP_EMPTY, OP_END_CLASS,
           OP_IMPORT_VARIABLE, OP_IMPORT_END, OP_BREAK, OP_BITWISE_AND,
           OP_BITWISE_XOR, OP_BITWISE_OR, OP_POP_REPL] then 0
  else if op ∈ [OP_CONSTANT, OP_GET_LOCAL, OP_SET_LOCAL, OP_GET_GLOBAL,
                OP_GET_MODULE, OP_DEFINE_MODULE, OP_SET_MODULE, OP_GET_UPVALUE,
                OP_SET_UPVALUE, OP_GET_PROPERTY, OP_SET_CLASS_VAR, OP_GET_SUPER,
                OP_METHOD, OP_IMPORT, OP_DEFINE_OPTIONAL, OP_JUMP,
                OP_JUMP_IF_FALSE, OP_LOOP, OP_CLASS, OP_CALL] then 2
  else if op = OP_INVOKE ∨ op = OP_SUPER then 3
  else if op = OP_CLOSURE then
    let constant := code.getD (ip + 1) 0
    match constants.getD constant .vnil with
    | .fn upvalueCount => 1 + upvalueCount * 2
    | _ => 1
  else if op = OP_IMPORT_FROM then 1 + code.getD (ip + 1) 0
  else 0

/-- The byte walk inside `endLoop`: from `loop.body` rewrite every byte
read as `OP_BREAK` into a patched `OP_JUMP`, otherwise advance by
`1 + getArgCount`.  Fuel-indexed; every step advances `i` by at least one
and patching preserves the code length, so fuel `count + 1 - body`
always suffices. -/
def breakWalkM : Nat → Nat → CompM Unit
  | 0, _ => unsupM
  | f + 1, i => do
    let s ← getSt
    let chunk := s.comp.chunk
    if i < chunk.code.length then
      if chunk.code.getD i 0 = OP_BREAK then do
        modifySt (fun s2 =>
          { s2 with comp := { s2.comp with chunk :=
              { s2.comp.chunk with code := s2.comp.chunk.code.set i OP_JUMP } } })
        patchJumpM (i + 1)
        breakWalkM f (i + 3)
      else breakWalkM f (i + 1 + getArgCount chunk.code chunk.constants i)
    else pure ()

/-- `endLoop`: patch the exit jump (when the loop has one), pop the
condition, run the break walk from `loop.body`, pop the loop record. -/
def endLoopM : CompM Unit := do
  let s ← getSt
  match s.comp.loops with
  | [] => crashM
  | loop :: rest => do
    if loop.endOffset ≠ -1 then do
      patchJumpM loop.endOffset.toNat
      emitByteM OP_POP
    else pure ()
    let s2 ← getSt
    breakWalkM (s2.comp.chunk.code.length + 1 - loop.body) loop.body
    modifySt (fun s3 => { s3 with comp := { s3.comp with loops := rest } })

/-!  ## Simple statements (no recursion into the expression parser) -/

/-- `breakStatement`: outside a loop, report and *return*; inside, consume
the semicolon, pop the loop-deep locals (without discarding them) and emit
the `OP_BREAK` placeholder jump. -/
def breakStatementM : CompM Unit := do
  let s ← getSt
  match s.comp.loops with
  | [] => errorM .cannotBreakOutsideLoop
  | loop :: _ => do
    consumeM .TOKEN_SEMICOLON .expectedSemicolonAfterBreak
    let s2 ← getSt
    (popsRev s2.comp.locals.reverse loop.scopeDepth).forM emitByteM
    let _ ← emitJumpM OP_BREAK
    pure ()

/-- `continueStatement`: outside a loop the source reports the error but
does **not** return; execution falls through to the local-discarding loop
and `emitLoop(compiler, compiler->loop->start)`, both of which dereference
the NULL `compiler->loop` — modelled as `crash`. -/
def continueStatementM : CompM Unit := do
  let s ← getSt
  if s.comp.loops = [] then errorM .cannotContinueOutsideLoop
  consumeM .TOKEN_SEMICOLON .expectSemicolonAfterContinue
  let s2 ← getSt
  match s2.comp.loops with
  | [] => crashM
  | loop :: _ => do
    (popsRev s2.comp.locals.reverse loop.scopeDepth).forM emitByteM
    emitLoopM loop.start

/-- `copyString(start + 1, length - 2)`: strip the surrounding quotes. -/
def stripQuotes (s : String) : String :=
  String.mk ((s.toList.drop 1).dropLast)

/-- `importStatement`: the whole path-and-alias part is guarded by
`match(TOKEN_STRING)`; a missing path skips it silently, leaving only
`OP_IMPORT_END` and the semicolon check. -/
def importStatementM : CompM Unit := do
  if (← matchM .TOKEN_STRING) then do
    let s ← getSt
    let importConstant ← makeConstantM (.str (stripQuotes s.parser.previous.text))
    emitBytesM OP_IMPORT importConstant
    emitByteM OP_POP
    if (← matchM .TOKEN_AS) then do
      let importName ← parseVariableM .expectImportAlias false
      emitByteM OP_IMPORT_VARIABLE
      defineVariableM importName false
    else pure ()
  else pure ()
  emitByteM OP_IMPORT_END
  consumeM .TOKEN_SEMICOLON .expectSemicolonAfterImport

/-- The loop body of `synchronize`: stop at EOF or just after a
semicolon; the keyword switch in the source falls through to a no-op
default, so only semicolons actually resynchronize. -/
def syncLoopM : Nat → CompM Unit
  | 0 => unsupM
  | f + 1 => do
    let s ← getSt
    if s.parser.current.type ≠ .TOKEN_EOF then
      if s.parser.previous.type = .TOKEN_SEMICOLON then pure ()
      else do
        advanceM
        syncLoopM f
    else pure ()

def synchronizeM : CompM Unit := do
  modifySt (fun s => { s with parser := { s.parser with panicMode := false } })
  let s ← getSt
  syncLoopM (s.parser.tokens.length + 2)

/-- Update the innermost loop record (`compiler->loop->field = ...`).
All call sites run right after the loop was pushed. -/
def setTopLoopM (f : LoopRec → LoopRec) : CompM Unit :=
  modifySt (fun s =>
    { s with comp := { s.comp with loops :=
        match s.comp.loops with
        | [] => []
        | l :: rest => f l :: rest } })

/-!  ## The recursive parser

The C parser is mutually recursive (expressions contain statements'
sub-expressions and vice versa).  To keep every definition reducible by
the kernel, the mutual recursion is defunctionalized: `PCall` names each
of the C functions involved, and the single fuel-indexed driver `runP`
interprets them, with every nested call strictly decreasing the fuel.
Running out of fuel (or reaching a construct outside the modelled
fragment: classes, functions, `var`, `for`, `if`, `return`,
`from`-imports, string literals, `this`/`super`, calls, property access)
yields `unsup`.  Thin wrappers restore the source function names. -/

inductive PCall where
  | parsePrec (precedence : Nat)
  | infixLoop (precedence : Nat) (canAssign : Bool)
  | prefixDis (pf : PrefixFnT) (canAssign : Bool)
  | infixDis (inf : InfixFnT) (token : Token) (canAssign : Bool)
  | exprC
  | groupingC
  | unaryC
  | binaryC (previousToken : Token) (canAssign : Bool)
  | andC
  | orC
  | variableC (canAssign : Bool)
  | namedVar (name : Token) (canAssign : Bool)
  | namedVarTail (name : Token) (canAssign : Bool) (getOp setOp arg : Nat)
  | compoundAssign (name : Token) (setOp arg binOp : Nat)
  | declC
  | stmtC
  | blockC
  | exprStmtC
  | whileC
  deriving Repr

def parserStep (rec : PCall → CompM Unit) (c : PCall) : CompM Unit :=
    match c with
    | .parsePrec precedence => do
      advanceM
      let s ← getSt
      let prefixRule := (getRule s.parser.previous.type).prefixFn
      if prefixRule = .pNone then errorM .expectExpression
      else do
        let canAssign := precedence ≤ PREC_ASSIGNMENT
        rec (.prefixDis prefixRule canAssign)
        rec (.infixLoop precedence canAssign)
        if canAssign then
          if (← matchM .TOKEN_EQUAL) then errorM .invalidAssignmentTarget
          else pure ()
        else pure ()
    | .infixLoop precedence canAssign => do
      let s ← getSt
      if precedence ≤ (getRule s.parser.current.type).prec then do
        let token := s.parser.previous
        advanceM
        let s2 ← getSt
        rec (.infixDis (getRule s2.parser.previous.type).infixFn token canAssign)
        rec (.infixLoop precedence canAssign)
      else pure ()
    | .prefixDis pf canAssign =>
      match pf with
      | .pGrouping => rec .groupingC
      | .pUnary => rec .unaryC
      | .pVariable => rec (.variableC canAssign)
      | .pNumber => do
        let s ← getSt
        emitConstantM (.number (parseNumberV s.parser.previous.text))
      | .pLiteral => do
        let s ← getSt
        match s.parser.previous.type with
        | .TOKEN_FALSE => emitByteM OP_FALSE
        | .TOKEN_NIL => emitByteM OP_NIL
        | .TOKEN_TRUE => emitByteM OP_TRUE
        | _ => pure ()
      | .pString => unsupM
      | .pSuper => unsupM
      | .pThis => unsupM
      | .pNone => pure ()
    | .infixDis inf token canAssign =>
      match inf with
      | .iBinary => rec (.binaryC token canAssign)
      | .iAnd => rec .andC
      | .iOr => rec .orC
      | .iCall => unsupM
      | .iDot => unsupM
      | .iNone => crashM
    | .exprC => rec (.parsePrec PREC_ASSIGNMENT)
    | .groupingC => do
      rec .exprC
      consumeM .TOKEN_RIGHT_PAREN .expectRightParenAfterExpression
    | .unaryC => do
      let s ← getSt
      let operatorType := s.parser.previous.type
      rec (.parsePrec PREC_UNARY)
      let s2 ← getSt
      match foldUnaryC operatorType s2.parser.previous.type s2.comp.chunk with
      | some chunk2 => modifySt (fun s3 => { s3 with comp := { s3.comp with chunk := chunk2 } })
      | none =>
        match operatorType with
        | .TOKEN_NOT => emitByteM OP_NOT
        | .TOKEN_MINUS => emitByteM OP_NEGATE
        | _ => pure ()
    | .binaryC previousToken canAssign => do
      let _ := canAssign
      let s ← getSt
      let operatorType := s.parser.previous.type
      let rule := getRule operatorType
      rec (.parsePrec (rule.prec + 1))
      let s2 ← getSt
      let currentToken := s2.parser.previous.type
      let folded :=
        if previousToken.type = .TOKEN_NUMBER ∧
           (currentToken = .TOKEN_NUMBER ∨ currentToken = .TOKEN_LEFT_PAREN) then
          foldBinaryC operatorType s2.comp.chunk
        else none
      match folded with
      | some chunk2 => modifySt (fun s3 => { s3 with comp := { s3.comp with chunk := chunk2 } })
      | none =>
        match operatorType with
        | .TOKEN_BANG_EQUAL => emitBytesM OP_EQUAL OP_NOT
        | .TOKEN_EQUAL_EQUAL => emitByteM OP_EQUAL
        | .TOKEN_GREATER => emitByteM OP_GREATER
        | .TOKEN_GREATER_EQUAL => emitBytesM OP_LESS OP_NOT
        | .TOKEN_LESS => emitByteM OP_LESS
        | .TOKEN_LESS_EQUAL => emitBytesM OP_GREATER OP_NOT
        | .TOKEN_PLUS => emitByteM OP_ADD
        | .TOKEN_MINUS => emitByteM OP_SUBTRACT
        | .TOKEN_STAR => emitByteM OP_MULTIPLY
        | .TOKEN_SLASH => emitByteM OP_DIVIDE
        | .TOKEN_AMPERSAND => emitByteM OP_BITWISE_AND
        | .TOKEN_CARET => emitByteM OP_BITWISE_XOR
        | .TOKEN_PIPE => emitByteM OP_BITWISE_OR
        | _ => pure ()
    | .andC => do
      let endJump ← emitJumpM OP_JUMP_IF_FALSE
      emitByteM OP_POP
      rec (.parsePrec PREC_AND)
      patchJumpM endJump
    | .orC => do
      let elseJump ← emitJumpM OP_JUMP_IF_FALSE
      let endJump ← emitJumpM OP_JUMP
      patchJumpM elseJump
      emitByteM OP_POP
      rec (.parsePrec PREC_OR)
      patchJumpM endJump
    | .variableC canAssign => do
      let s ← getSt
      rec (.namedVar s.parser.previous canAssign)
    | .namedVar name canAssign => do
      -- resolve in order local -> upvalue -> global -> module
      let s ← getSt
      let (argOpt, lerr) := resolveLocalM s.comp.locals name.text false
      if lerr then errorM .cannotReadLocalInOwnInitializer else pure ()
      match argOpt with
      | some arg => rec (.namedVarTail name canAssign OP_GET_LOCAL OP_SET_LOCAL arg)
      | none => do
        let (uOpt, cur2, encl2, uerr) :=
          resolveUpvalueM ⟨s.comp.locals, s.comp.upvalues⟩ s.comp.enclosing name.text
        modifySt (fun s2 =>
          { s2 with comp := { s2.comp with
              locals := cur2.locals, upvalues := cur2.upvalues, enclosing := encl2 } })
        if uerr then errorM .tooManyClosureVariables else pure ()
        match uOpt with
        | some arg => rec (.namedVarTail name canAssign OP_GET_UPVALUE OP_SET_UPVALUE arg)
        | none => do
          let arg ← identifierConstantM name.text
          let s3 ← getSt
          if name.text ∈ s3.vm.globals then
            -- canAssign is forced to false; setOp stays uninitialized in C and
            -- is never read on this path (all writes are guarded by canAssign)
            rec (.namedVarTail name false OP_GET_GLOBAL OP_GET_GLOBAL arg)
          else
            rec (.namedVarTail name canAssign OP_GET_MODULE OP_SET_MODULE arg)
    | .namedVarTail name canAssign getOp setOp arg => do
      -- the C canAssign && match(...) chain short-circuits: with canAssign
      -- false no operator token is consumed
      if canAssign then
        if (← matchM .TOKEN_EQUAL) then do
          checkConstM setOp arg
          rec .exprC
          emitBytesM setOp arg
        else if (← matchM .TOKEN_PLUS_EQUALS) then
          rec (.compoundAssign name setOp arg OP_ADD)
        else if (← matchM .TOKEN_MINUS_EQUALS) then
          rec (.compoundAssign name setOp arg OP_SUBTRACT)
        else if (← matchM .TOKEN_MULTIPLY_EQUALS) then
          rec (.compoundAssign name setOp arg OP_MULTIPLY)
        else if (← matchM .TOKEN_DIVIDE_EQUALS) then
          rec (.compoundAssign name setOp arg OP_DIVIDE)
        else if (← matchM .TOKEN_AMPERSAND_EQUALS) then
          rec (.compoundAssign name setOp arg OP_BITWISE_AND)
        else if (← matchM .TOKEN_CARET_EQUALS) then
          rec (.compoundAssign name setOp arg OP_BITWISE_XOR)
        else if (← matchM .TOKEN_PIPE_EQUALS) then
          rec (.compoundAssign name setOp arg OP_BITWISE_OR)
        else emitBytesM getOp arg
      else emitBytesM getOp arg
    | .compoundAssign name setOp arg binOp => do
      checkConstM setOp arg
      rec (.namedVar name false)
      rec .exprC
      emitByteM binOp
      emitBytesM setOp arg
    | .declC => do
      if (← matchM .TOKEN_CLASS) then unsupM
      else do
        if (← matchM .TOKEN_DEF) then unsupM
        else if (← matchM .TOKEN_VAR) then unsupM
        else rec .stmtC
        let s ← getSt
        if s.parser.panicMode then synchronizeM else pure ()
    | .stmtC => do
      if (← matchM .TOKEN_FOR) then unsupM
      else if (← matchM .TOKEN_IF) then unsupM
      else if (← matchM .TOKEN_RETURN) then unsupM
      else if (← matchM .TOKEN_IMPORT) then importStatementM
      else if (← matchM .TOKEN_FROM) then unsupM
      else if (← matchM .TOKEN_BREAK) then breakStatementM
      else if (← matchM .TOKEN_WHILE) then rec .whileC
      else if (← matchM .TOKEN_LEFT_BRACE) then do
        let s ← getSt
        let previous := s.parser.previous
        let curtok := s.parser.current
        advanceM
        let rb ← checkM .TOKEN_RIGHT_BRACE
        let sc ← checkM .TOKEN_SEMICOLON
        if rb ∧ sc then
          -- dead in the source: both checks inspect the same current token,
          -- so the empty-braces-as-expression-statement special case can
          -- never fire
          unsupM
        else do
          backTrackCurrentM
          modifySt (fun s2 =>
            { s2 with parser := { s2.parser with previous := previous, current := curtok } })
          beginScopeM
          rec .blockC
          endScopeM
      else if (← matchM .TOKEN_CONTINUE) then continueStatementM
      else rec .exprStmtC
    | .blockC => do
      let rb ← checkM .TOKEN_RIGHT_BRACE
      let eo ← checkM .TOKEN_EOF
      if ¬rb ∧ ¬eo then do
        rec .declC
        rec .blockC
      else consumeM .TOKEN_RIGHT_BRACE .expectRightBraceAfterBlock
    | .exprStmtC => do
      -- peek one token ahead (saving its kind in t), rewind the scanner,
      -- parse the expression, then choose the epilogue
      let s0 ← getSt
      let previous := s0.parser.previous
      advanceM
      let s1 ← getSt
      let t := s1.parser.current.type
      backTrackCurrentM
      modifySt (fun s2 =>
        { s2 with parser := { s2.parser with
            current := s2.parser.previous, previous := previous } })
      rec .exprC
      consumeM .TOKEN_SEMICOLON .expectSemicolonAfterExpression
      let s3 ← getSt
      if s3.vm.repl ∧ t ≠ .TOKEN_EQUAL ∧ s3.comp.ftype = .TYPE_TOP_LEVEL then
        emitByteM OP_POP_REPL
      else emitByteM OP_POP
    | .whileC => do
      let s ← getSt
      modifySt (fun s2 =>
        { s2 with comp := { s2.comp with loops :=
            (⟨s.comp.chunk.code.length, s.comp.scopeDepth, 0, -1⟩ : LoopRec) :: s2.comp.loops } })
      if (← checkM .TOKEN_LEFT_BRACE) then emitByteM OP_TRUE
      else do
        consumeM .TOKEN_LEFT_PAREN .expectLeftParenAfterWhile
        rec .exprC
        consumeM .TOKEN_RIGHT_PAREN .expectRightParenAfterCondition
      let off ← emitJumpM OP_JUMP_IF_FALSE
      setTopLoopM (fun l => { l with endOffset := (off : Int) })
      emitByteM OP_POP
      let s3 ← getSt
      setTopLoopM (fun l => { l with body := s3.comp.chunk.code.length })
      rec .stmtC
      let s4 ← getSt
      match s4.comp.loops with
      | [] => crashM
      | loop :: _ => emitLoopM loop.start
      endLoopM

/-- The fuel-indexed driver: each nesting level peels one unit of fuel
and interprets one C parser function via `parserStep`. -/
def runP : Nat → PCall → CompM Unit
  | 0, _ => unsupM
  | f + 1, c => parserStep (runP f) c

/-- `parsePrecedence`. -/
def parsePrecedenceM (f precedence : Nat) : CompM Unit := runP f (.parsePrec precedence)

/-- `expression`. -/
def expressionM (f : Nat) : CompM Unit := runP f .exprC

/-- `namedVariable`. -/
def namedVariableM (f : Nat) (name : Token) (canAssign : Bool) : CompM Unit :=
  runP f (.namedVar name canAssign)

/-- `declaration`. -/
def declarationM (f : Nat) : CompM Unit := runP f .declC

/-- `statement`. -/
def statementM (f : Nat) : CompM Unit := runP f .stmtC

/-- `expressionStatement`. -/
def expressionStatementM (f : Nat) : CompM Unit := runP f .exprStmtC

/-- `whileStatement`. -/
def whileStatementM (f : Nat) : CompM Unit := runP f .whileC

/-- `block`. -/
def blockM (f : Nat) : CompM Unit := runP f .blockC

/-!  ## The driver -/

/-- The repeated `declaration(); while (!match(TOKEN_EOF))` loop of
`compile`. -/
def declLoopM : Nat → CompM Unit
  | 0 => unsupM
  | f + 1 => do
    declarationM (f + 1)
    if (← matchM .TOKEN_EOF) then pure () else declLoopM f

/-- Initial state: fresh parser over the token stream, top-level compiler
with the anonymous reserved slot 0. -/
def initSt (repl : Bool) (globals : List String) (tokens : List Token) : St :=
  { vm := ⟨repl, globals, []⟩,
    parser := ⟨tokens, 0, eofToken, eofToken, false, false, []⟩,
    comp := ⟨⟨[], []⟩, [], [⟨"", 0, false, false⟩], [], [], 0, [], .TYPE_TOP_LEVEL⟩ }

/-- What a compile run yields: the returned function's chunk (none when
`hadError`), the chunk that was built either way, and the reported
diagnostics in order. -/
structure CompileRes where
  result : Option Chunk
  chunk : Chunk
  errors : List ErrMsg
  deriving DecidableEq, Repr

/-- `compile(vm, module, source)`: advance once, parse declarations to
EOF, emit the implicit return, and hand back the function unless an error
was recorded.  (`endCompiler`'s OP_CLOSURE emission is for nested
compilers only, and the non-REPL clearing of `vm->constants` only touches
VM state the result does not expose.) -/
def compileTokens (fuel : Nat) (repl : Bool) (globals : List String)
    (tokens : List Token) : Out CompileRes :=
  let run : CompM Unit := do
    advanceM
    if (← matchM .TOKEN_EOF) then pure () else declLoopM fuel
    emitReturnM
  match run (initSt repl globals tokens) with
  | .ok ((), s) =>
    .ok ⟨if s.parser.hadError then none else some s.comp.chunk, s.comp.chunk, s.parser.errors⟩
  | .crash => .crash
  | .unsup => .unsup

/-!  ## Concrete token material shared by the claim programs -/

def semiT : Token := tok .TOKEN_SEMICOLON ";"
def lparenT : Token := tok .TOKEN_LEFT_PAREN "("
def rparenT : Token := tok .TOKEN_RIGHT_PAREN ")"
def lbraceT : Token := tok .TOKEN_LEFT_BRACE "\x7b"
def rbraceT : Token := tok .TOKEN_RIGHT_BRACE "\x7d"
def eqT : Token := tok .TOKEN_EQUAL "="
def plusT : Token := tok .TOKEN_PLUS "+"
def starT : Token := tok .TOKEN_STAR "*"
def minusT : Token := tok .TOKEN_MINUS "-"
def notT : Token := tok .TOKEN_NOT "not"
def trueT : Token := tok .TOKEN_TRUE "true"
def whileT : Token := tok .TOKEN_WHILE "while"
def breakT : Token := tok .TOKEN_BREAK "break"
def continueT : Token := tok .TOKEN_CONTINUE "continue"
def importT : Token := tok .TOKEN_IMPORT "import"
def plusEqT : Token := tok .TOKEN_PLUS_EQUALS "+="
def numT (s : String) : Token := tok .TOKEN_NUMBER s
def idT (s : String) : Token := tok .TOKEN_IDENTIFIER s

/-- The reserved slot-0 local of a fresh compiler. -/
def slot0 : Local := ⟨"", 0, false, false⟩

/-!  ## Claim theorems

`Rat.add`/`Rat.mul`/`Rat.sub`/`Rat.inv` are `@[irreducible]` in this
toolchain; the claim proofs evaluate the compiler model by reduction, so
they are made semireducible for this file (the kernel ignores
reducibility annotations, so this changes no proof obligations). -/

attribute [local semireducible] Rat.add Rat.mul Rat.sub Rat.inv

/-- Claim C9: compiling an empty module (no declarations) succeeds with no
diagnostics and yields a function whose chunk bytecode is exactly
`[OP_NIL, OP_RETURN]`. -/
theorem c9_empty_module_nil_return :
    compileTokens 40 false [] [eofToken] =
      .ok ⟨some ⟨[OP_NIL, OP_RETURN], []⟩, ⟨[OP_NIL, OP_RETURN], []⟩, []⟩ := by
  decide

/-- Claim C10: `import;` (no path string) is accepted by the import parser
with no error: the whole path-handling block is skipped and only
`OP_IMPORT_END` is emitted (no `OP_IMPORT`), followed by the module
epilogue `OP_NIL, OP_RETURN`; compilation succeeds. -/
theorem c10_bare_import_ok :
    compileTokens 40 false [] [importT, semiT, eofToken] =
      .ok ⟨some ⟨[OP_IMPORT_END, OP_NIL, OP_RETURN], []⟩,
           ⟨[OP_IMPORT_END, OP_NIL, OP_RETURN], []⟩, []⟩ := by
  decide

/-- Claim C3 (code bug): `break;` outside a loop reports its error,
returns early, emits nothing, and compilation runs to EOF returning the
null sentinel — but `continue;` outside a loop, after reporting its
error, falls through (the `return` present in `breakStatement` is missing
in `continueStatement`) into the locals loop and
`emitLoop(compiler, compiler->loop->start)`, dereferencing the NULL
`compiler->loop`: the model crashes rather than running to EOF. -/
theorem c3_continue_crashes_break_returns :
    compileTokens 40 false [] [continueT, semiT, eofToken] = .crash ∧
    compileTokens 40 false [] [breakT, semiT, eofToken] =
      .ok ⟨none, ⟨[OP_NIL, OP_RETURN], []⟩, [.cannotBreakOutsideLoop]⟩ := by
  constructor
  · decide
  · decide

/-- Claim C8 (code bug): `{};` is *not* compiled as an expression
statement and does produce a compile error.  The special case in
`statement` guards on `check(TOKEN_RIGHT_BRACE)` and then
`check(TOKEN_SEMICOLON)` against the *same* current token, so it can
never fire; `{}` therefore parses as an empty block and the dangling `;`
starts an expression statement that reports "Expect expression."
(the `OP_POP` epilogue is still emitted after the error). -/
theorem c8_empty_brace_semicolon_errors :
    compileTokens 40 false [] [lbraceT, rbraceT, semiT, eofToken] =
      .ok ⟨none, ⟨[OP_POP, OP_NIL, OP_RETURN], []⟩, [.expectExpression]⟩ := by
  decide

set_option maxHeartbeats 4000000 in
/-- Claim C1 (code bug): a successful compilation whose final bytecode
retains an `OP_BREAK`.  For `while (true) { x = x; break; }` the
`endLoop` walk starts at `loop.body` on `OP_GET_MODULE`, advances
`1 + getArgCount = 3` over that 2-byte instruction (`getArgCount` reports
2 operand bytes for the one-operand `OP_CONSTANT` family), lands on the
operand byte of `OP_SET_MODULE` (value 0, which decodes as `OP_CONSTANT`
under the modelled numbering), steps another 3 bytes, and so walks past
the `OP_BREAK` at offset 10, which survives with its 0xff placeholder
operands.  Compilation reports no error and returns the function. -/
theorem c1_break_survives_endLoop :
    compileTokens 40 false []
        [whileT, lparenT, trueT, rparenT, lbraceT,
         idT "x", eqT, idT "x", semiT, breakT, semiT, rbraceT, eofToken] =
      .ok ⟨some ⟨[OP_TRUE, OP_JUMP_IF_FALSE, 0, 12, OP_POP,
                  OP_GET_MODULE, 0, OP_SET_MODULE, 0, OP_POP,
                  OP_BREAK, 255, 255, OP_LOOP, 0, 16, OP_POP,
                  OP_NIL, OP_RETURN], [.str "x"]⟩,
           ⟨[OP_TRUE, OP_JUMP_IF_FALSE, 0, 12, OP_POP,
             OP_GET_MODULE, 0, OP_SET_MODULE, 0, OP_POP,
             OP_BREAK, 255, 255, OP_LOOP, 0, 16, OP_POP,
             OP_NIL, OP_RETURN], [.str "x"]⟩, []⟩ ∧
    [OP_TRUE, OP_JUMP_IF_FALSE, 0, 12, OP_POP,
     OP_GET_MODULE, 0, OP_SET_MODULE, 0, OP_POP,
     OP_BREAK, 255, 255, OP_LOOP, 0, 16, OP_POP,
     OP_NIL, OP_RETURN].getD 10 0 = OP_BREAK := by
  constructor
  · decide
  · decide

/-- The numbering-independent root cause behind C1: the walk step
`1 + getArgCount` advances 3 bytes over an instruction of the
`OP_CONSTANT` family, although the emitter writes those instructions as
opcode plus a single operand byte (2 bytes), e.g. `namedVariable`'s
`emitBytes(getOp, arg)` for `OP_GET_MODULE`. -/
theorem getArgCount_overcounts_one_operand_family :
    getArgCount [OP_GET_MODULE, 0] [] 0 = 2 ∧
    getArgCount [OP_CONSTANT, 0] [] 0 = 2 ∧
    getArgCount [OP_SET_MODULE, 0] [] 0 = 2 ∧
    getArgCount [OP_METHOD, 0] [] 0 = 2 := by
  decide

/-- Claim C2 counterexample: `-(-5);` does **not** compile to a single
`OP_CONSTANT` holding 5.  The inner negation folds into the pool (the
constant becomes -5), but the outer `foldUnary` tests the token that
ended its operand — `)` — against `TOKEN_NUMBER`, fails, and emits a
residual `OP_NEGATE`. -/
theorem c2_neg_paren_not_folded :
    compileTokens 40 false [] [minusT, lparenT, minusT, numT "5", rparenT, semiT, eofToken] =
      .ok ⟨some ⟨[OP_CONSTANT, 0, OP_NEGATE, OP_POP, OP_NIL, OP_RETURN],
                 [.number (-5)]⟩,
           ⟨[OP_CONSTANT, 0, OP_NEGATE, OP_POP, OP_NIL, OP_RETURN],
            [.number (-5)]⟩, []⟩ ∧
    OP_NEGATE ∈ [OP_CONSTANT, 0, OP_NEGATE, OP_POP, OP_NIL, OP_RETURN] := by
  constructor
  · decide
  · decide

/-- Claim C2 as amended: `1+2*3;` and `1+2+3;` fold to a single
`OP_CONSTANT` holding 7 and 6, and `not true;` folds to a single
`OP_FALSE` (each plus the `OP_POP` statement epilogue and the
`OP_NIL, OP_RETURN` terminator); but `-(-5);` folds only the inner
negation and emits `OP_CONSTANT (-5)` followed by a residual `OP_NEGATE`,
because the outer fold requires the operand to have ended in a number
token and it ended in `)`. -/
theorem c2_constant_folding_amended :
    compileTokens 40 false [] [numT "1", plusT, numT "2", starT, numT "3", semiT, eofToken] =
      .ok ⟨some ⟨[OP_CONSTANT, 0, OP_POP, OP_NIL, OP_RETURN], [.number 7]⟩,
           ⟨[OP_CONSTANT, 0, OP_POP, OP_NIL, OP_RETURN], [.number 7]⟩, []⟩ ∧
    compileTokens 40 false [] [numT "1", plusT, numT "2", plusT, numT "3", semiT, eofToken] =
      .ok ⟨some ⟨[OP_CONSTANT, 0, OP_POP, OP_NIL, OP_RETURN], [.number 6]⟩,
           ⟨[OP_CONSTANT, 0, OP_POP, OP_NIL, OP_RETURN], [.number 6]⟩, []⟩ ∧
    compileTokens 40 false [] [notT, trueT, semiT, eofToken] =
      .ok ⟨some ⟨[OP_FALSE, OP_POP, OP_NIL, OP_RETURN], []⟩,
           ⟨[OP_FALSE, OP_POP, OP_NIL, OP_RETURN], []⟩, []⟩ ∧
    compileTokens 40 false [] [minusT, lparenT, minusT, numT "5", rparenT, semiT, eofToken] =
      .ok ⟨some ⟨[OP_CONSTANT, 0, OP_NEGATE, OP_POP, OP_NIL, OP_RETURN],
                 [.number (-5)]⟩,
           ⟨[OP_CONSTANT, 0, OP_NEGATE, OP_POP, OP_NIL, OP_RETURN],
            [.number (-5)]⟩, []⟩ := by
  refine ⟨?_, ?_, ?_, ?_⟩ <;> decide

/-- Claim C7 counterexample: in REPL mode the epilogue of the expression
statement `x = 1;` is `OP_POP`, not `OP_POP_REPL` — `expressionStatement`
peeks at the statement's second token and suppresses `OP_POP_REPL`
whenever that token is `=`. -/
theorem c7_repl_assignment_keeps_pop :
    compileTokens 40 true [] [idT "x", eqT, numT "1", semiT, eofToken] =
      .ok ⟨some ⟨[OP_CONSTANT, 1, OP_SET_MODULE, 0, OP_POP, OP_NIL, OP_RETURN],
                 [.str "x", .number 1]⟩,
           ⟨[OP_CONSTANT, 1, OP_SET_MODULE, 0, OP_POP, OP_NIL, OP_RETURN],
            [.str "x", .number 1]⟩, []⟩ ∧
    OP_POP_REPL ∉ [OP_CONSTANT, 1, OP_SET_MODULE, 0, OP_POP, OP_NIL, OP_RETURN] := by
  constructor
  · decide
  · decide

/-- Claim C7 as amended: in REPL mode the expression-statement epilogue
is `OP_POP_REPL` only at top level and when the statement's second token
is not `=` (`1;` gets `OP_POP_REPL` where the non-REPL compilation has
`OP_POP`, and that is the only difference); a top-level assignment such
as `x = 1;` compiles identically in REPL and non-REPL mode, keeping
`OP_POP`. -/
theorem c7_repl_epilogue_amended :
    compileTokens 40 true [] [numT "1", semiT, eofToken] =
      .ok ⟨some ⟨[OP_CONSTANT, 0, OP_POP_REPL, OP_NIL, OP_RETURN], [.number 1]⟩,
           ⟨[OP_CONSTANT, 0, OP_POP_REPL, OP_NIL, OP_RETURN], [.number 1]⟩, []⟩ ∧
    compileTokens 40 false [] [numT "1", semiT, eofToken] =
      .ok ⟨some ⟨[OP_CONSTANT, 0, OP_POP, OP_NIL, OP_RETURN], [.number 1]⟩,
           ⟨[OP_CONSTANT, 0, OP_POP, OP_NIL, OP_RETURN], [.number 1]⟩, []⟩ ∧
    compileTokens 40 true [] [idT "x", eqT, numT "1", semiT, eofToken] =
      compileTokens 40 false [] [idT "x", eqT, numT "1", semiT, eofToken] := by
  refine ⟨?_, ?_, ?_⟩ <;> decide

/-!  ## C4: reading a local in its own initializer -/

/-- A compiler state one function deep: the enclosing function holds the
local `f`, declared but not yet defined (`depth = -1`, exactly the window
while its initializer — here the nested function itself — is being
compiled); the parser sits after the identifier `f`. -/
def c4St : St :=
  { vm := ⟨false, [], []⟩,
    parser := ⟨[], 0, semiT, idT "f", false, false, []⟩,
    comp := ⟨⟨[], []⟩, [], [slot0], [],
             [⟨[slot0, ⟨"f", -1, false, false⟩], []⟩], 1, [], .TYPE_FUNCTION⟩ }

/-- Claim C4 counterexample: an identifier use that resolves through the
upvalue path to a local of depth -1 reports **no** error.  In `c4St` the
enclosing function's local `f` has `depth = -1`, yet `namedVariable`
resolves it as an upvalue (emitting `OP_GET_UPVALUE 0`, marking the local
captured) with the error list still empty — `resolveUpvalue` passes
`inFunction = true` to `resolveLocal`, which suppresses the
"Cannot read local variable in its own initializer." report that the
claim requires. -/
theorem c4_upvalue_path_silent :
    namedVariableM 10 (idT "f") true c4St =
      .ok ((), { c4St with comp := { c4St.comp with
            chunk := ⟨[OP_GET_UPVALUE, 0], []⟩,
            upvalues := [⟨1, true, false⟩],
            enclosing := [⟨[slot0, ⟨"f", -1, true, false⟩], []⟩] } }) ∧
    resolveUpvalueM ⟨[slot0], []⟩ [⟨[slot0, ⟨"f", -1, false, false⟩], []⟩] "f" =
      (some 0, ⟨[slot0], [⟨1, true, false⟩]⟩,
       [⟨[slot0, ⟨"f", -1, true, false⟩], []⟩], false) := by
  constructor
  · decide
  · decide

/-- Claim C4 as amended: the "Cannot read local variable in its own
initializer." error is reported exactly when the use resolves to a
depth -1 local **in the function itself** (`resolveLocal` with
`inFunction = false`); on the upvalue path `resolveLocal` runs with
`inFunction = true` and resolves the same local silently. -/
theorem c4_own_initializer_amended (locals : List Local) (name : String)
    (i : Nat) (loc : Local) (h : lastMatch name locals 0 = some (i, loc))
    (hd : loc.depth = -1) :
    resolveLocalM locals name false = (some i, true) ∧
    resolveLocalM locals name true = (some i, false) := by
  unfold resolveLocalM
  rw [h]
  simp [hd]

/-- Witness for the amended C4 theorem at a concrete state. -/
theorem c4_own_initializer_amended_witness :
    resolveLocalM [slot0, ⟨"f", -1, false, false⟩] "f" false = (some 1, true) ∧
    resolveLocalM [slot0, ⟨"f", -1, false, false⟩] "f" true = (some 1, false) :=
  c4_own_initializer_amended [slot0, ⟨"f", -1, false, false⟩] "f" 1
    ⟨"f", -1, false, false⟩ (by decide) (by decide)

/-!  ## C5: the identifier-resolution order in namedVariable -/

/-- A state whose compiler holds a defined local `a`; parser after
identifier `a`, current token `;`. -/
def c5LocalSt : St :=
  { vm := ⟨false, [], []⟩,
    parser := ⟨[], 0, semiT, idT "a", false, false, []⟩,
    comp := ⟨⟨[], []⟩, [], [slot0, ⟨"a", 1, false, false⟩], [], [], 1, [], .TYPE_FUNCTION⟩ }

/-- A state where `u` is a local of the enclosing function only. -/
def c5UpSt : St :=
  { vm := ⟨false, [], []⟩,
    parser := ⟨[], 0, semiT, idT "u", false, false, []⟩,
    comp := ⟨⟨[], []⟩, [], [slot0], [],
             [⟨[slot0, ⟨"u", 1, false, false⟩], []⟩], 0, [], .TYPE_FUNCTION⟩ }

/-- A state where `g` is only in the VM globals table and the next token
is `=` (a pending assignment). -/
def c5GlobSt : St :=
  { vm := ⟨false, ["g"], []⟩,
    parser := ⟨[numT "1", semiT, eofToken], 0, eqT, idT "g", false, false, []⟩,
    comp := ⟨⟨[], []⟩, [], [slot0], [], [], 0, [], .TYPE_TOP_LEVEL⟩ }

/-- Claim C5 as amended: on an identifier use the emitted opcode follows
the fixed order local → upvalue → global → module:
a resolved local yields `OP_GET_LOCAL` (slot 1 here); otherwise a
resolved upvalue yields `OP_GET_UPVALUE`; otherwise a name in the VM
globals table emits only `OP_GET_GLOBAL` and — because `canAssign` is
forced off — leaves a pending `=` unconsumed, so the surrounding
`parsePrecedence` reports "Invalid assignment target." for `g = 1;`;
otherwise `OP_GET_MODULE`/`OP_SET_MODULE` carry the name's constant-pool
index (`m = 1;`).  Compound assignments to a global are also rejected but
surface as "Expect ';' after expression." (see the counterexample). -/
theorem c5_resolution_order_amended :
    namedVariableM 10 (idT "a") true c5LocalSt =
      .ok ((), { c5LocalSt with comp := { c5LocalSt.comp with
            chunk := ⟨[OP_GET_LOCAL, 1], []⟩ } }) ∧
    namedVariableM 10 (idT "u") true c5UpSt =
      .ok ((), { c5UpSt with comp := { c5UpSt.comp with
            chunk := ⟨[OP_GET_UPVALUE, 0], []⟩,
            upvalues := [⟨1, true, false⟩],
            enclosing := [⟨[slot0, ⟨"u", 1, true, false⟩], []⟩] } }) ∧
    namedVariableM 10 (idT "g") true c5GlobSt =
      .ok ((), { c5GlobSt with comp := { c5GlobSt.comp with
            chunk := ⟨[OP_GET_GLOBAL, 0], [.str "g"]⟩,
            stringConstants := [("g", 0)] } }) ∧
    compileTokens 40 false ["g"] [idT "g", eqT, numT "1", semiT, eofToken] =
      .ok ⟨none, ⟨[OP_GET_GLOBAL, 0, OP_POP, OP_NIL, OP_RETURN], [.str "g"]⟩,
           [.invalidAssignmentTarget]⟩ ∧
    compileTokens 40 false [] [idT "m", eqT, numT "1", semiT, eofToken] =
      .ok ⟨some ⟨[OP_CONSTANT, 1, OP_SET_MODULE, 0, OP_POP, OP_NIL, OP_RETURN],
                 [.str "m", .number 1]⟩,
           ⟨[OP_CONSTANT, 1, OP_SET_MODULE, 0, OP_POP, OP_NIL, OP_RETURN],
            [.str "m", .number 1]⟩, []⟩ := by
  refine ⟨?_, ?_, ?_, ?_, ?_⟩ <;> decide

/-- Claim C5 counterexample: a compound assignment to a global name is an
assignment to that name, and it is *not* reported as "Invalid assignment
target.": for `g += 1;` the `+=` is never consumed (the final check in
`parsePrecedence` only matches `=`), so the statement fails with
"Expect ';' after expression." instead, emitting `OP_GET_GLOBAL` and no
set opcode. -/
theorem c5_compound_assign_global_message :
    compileTokens 40 false ["g"] [idT "g", plusEqT, numT "1", semiT, eofToken] =
      .ok ⟨none, ⟨[OP_GET_GLOBAL, 0, OP_POP, OP_NIL, OP_RETURN], [.str "g"]⟩,
           [.expectSemicolonAfterExpression]⟩ ∧
    ErrMsg.invalidAssignmentTarget ∉ [ErrMsg.expectSemicolonAfterExpression] := by
  constructor
  · decide
  · decide

/-!  ## C6: upvalue flattening and addUpvalue idempotence

`UpChain name cur encl i` describes the shape the claim requires of the
compiler chain after a successful `resolveUpvalue`: walking the enclosing
frames, the originating local is marked upvalue-captured in its declaring
frame, and every function on the way (the current one included) holds an
upvalue entry chaining to its parent, `isLocal = true` exactly in the
function whose direct enclosing frame declares the local. -/

inductive UpChain (name : String) : Frame → List Frame → Nat → Prop where
  | direct (cur e : Frame) (rest : List Frame) (i l : Nat) (loc : Local) (c : Bool)
      (hl : lastMatch name e.locals 0 = some (l, loc))
      (hm : loc.isUpvalue = true)
      (he : cur.upvalues.get? i = some ⟨l, true, c⟩) :
      UpChain name cur (e :: rest) i
  | thru (cur e : Frame) (rest : List Frame) (i u : Nat) (c : Bool)
      (hn : lastMatch name e.locals 0 = none)
      (hub : UpChain name e rest u)
      (he : cur.upvalues.get? i = some ⟨u, false, c⟩) :
      UpChain name cur (e :: rest) i

/-- `lastMatch` returns an in-bounds index (relative to the offset) and
the local that sits there. -/
theorem lastMatch_spec (name : String) :
    ∀ (ls : List Local) (k i : Nat) (loc : Local),
      lastMatch name ls k = some (i, loc) →
      k ≤ i ∧ ls.get? (i - k) = some loc := by
  intro ls
  induction ls with
  | nil => intro k i loc h; simp [lastMatch] at h
  | cons l rest ih =>
    intro k i loc h
    unfold lastMatch at h
    cases hr : lastMatch name rest (k + 1) with
    | some r =>
      rw [hr] at h
      rcases r with ⟨ri, rloc⟩
      obtain ⟨hri, hrloc⟩ : ri = i ∧ rloc = loc := by simpa using h
      rw [hri, hrloc] at hr
      obtain ⟨hk, hg⟩ := ih (k + 1) i loc hr
      refine ⟨by omega, ?_⟩
      have hik : i - k = (i - (k + 1)) + 1 := by omega
      rw [hik]
      simpa using hg
    | none =>
      rw [hr] at h
      by_cases hn : l.name = name
      · simp [hn] at h
        obtain ⟨hi, hloc⟩ := h
        refine ⟨by omega, ?_⟩
        have h0 : i - k = 0 := by omega
        rw [h0, hloc]
        simp
      · simp [hn] at h

/-- Marking the slot that `lastMatch` found preserves the search result,
with the local now flagged upvalue-captured. -/
theorem lastMatch_mark (name : String) :
    ∀ (ls : List Local) (k i : Nat) (loc : Local),
      lastMatch name ls k = some (i, loc) →
      lastMatch name (setLocalCaptured ls (i - k)) k =
        some (i, { loc with isUpvalue := true }) := by
  intro ls
  induction ls with
  | nil => intro k i loc h; simp [lastMatch] at h
  | cons l rest ih =>
    intro k i loc h
    unfold lastMatch at h
    cases hr : lastMatch name rest (k + 1) with
    | some r =>
      rw [hr] at h
      rcases r with ⟨ri, rloc⟩
      obtain ⟨hri, hrloc⟩ : ri = i ∧ rloc = loc := by simpa using h
      rw [hri, hrloc] at hr
      have hk1 : k + 1 ≤ i := (lastMatch_spec name rest (k + 1) i loc hr).1
      have hik : i - k = (i - (k + 1)) + 1 := by omega
      rw [hik]
      show lastMatch name (l :: setLocalCaptured rest (i - (k + 1))) k = _
      unfold lastMatch
      rw [ih (k + 1) i loc hr]
    | none =>
      rw [hr] at h
      by_cases hn : l.name = name
      · simp [hn] at h
        obtain ⟨hi, hloc⟩ := h
        have h0 : i - k = 0 := by omega
        rw [h0, hloc]
        show lastMatch name ({ loc with isUpvalue := true } :: rest) k = _
        unfold lastMatch
        rw [hr]
        have hn3 : loc.name = name := by rw [← hloc]; exact hn
        simp [hn3, hi]
      · simp [hn] at h

/-- A successful `findPairIdx` points at an entry with the searched
`(index, isLocal)` pair. -/
theorem findPairIdx_get? (idx : Nat) (isl : Bool) :
    ∀ (ups : List UpvalueRec) (j : Nat),
      findPairIdx idx isl ups = some j →
      ∃ c, ups.get? j = some ⟨idx, isl, c⟩ := by
  intro ups
  induction ups with
  | nil => intro j h; simp [findPairIdx] at h
  | cons u rest ih =>
    intro j h
    unfold findPairIdx at h
    by_cases hc : u.index = idx ∧ u.isLocal = isl
    · simp [hc] at h
      subst h
      refine ⟨u.constant, ?_⟩
      obtain ⟨h1, h2⟩ := hc
      cases u
      simp_all
    · simp [hc] at h
      obtain ⟨m, hm, hj⟩ := h
      obtain ⟨c, hc2⟩ := ih m hm
      exact ⟨c, by rw [← hj]; simpa using hc2⟩

/-- A non-erroring `addUpvalue` returns an index that carries the
requested `(index, isLocal)` pair in the resulting frame. -/
theorem addUpvalue_entry {f : Frame} {idx : Nat} {isl c : Bool} {i : Nat} {f2 : Frame}
    (h : addUpvalueM f idx isl c = (i, f2, false)) :
    ∃ c2, f2.upvalues.get? i = some ⟨idx, isl, c2⟩ := by
  unfold addUpvalueM at h
  cases hf : findPairIdx idx isl f.upvalues with
  | some j =>
    rw [hf] at h
    obtain ⟨h1, h2⟩ : j = i ∧ f = f2 := by simpa using h
    rw [← h2, ← h1]
    exact findPairIdx_get? idx isl f.upvalues j hf
  | none =>
    rw [hf] at h
    by_cases hl : f.upvalues.length = 256
    · simp [hl] at h
    · simp [hl] at h
      obtain ⟨h1, h2⟩ := h
      refine ⟨c, ?_⟩
      rw [← h2, ← h1]
      exact List.get?_concat_length f.upvalues ⟨idx, isl, c⟩

/-- `addUpvalue` never touches the locals of the frame. -/
theorem addUpvalue_locals (f : Frame) (idx : Nat) (isl c : Bool) :
    ((addUpvalueM f idx isl c).2.1).locals = f.locals := by
  unfold addUpvalueM
  cases findPairIdx idx isl f.upvalues with
  | some j => rfl
  | none =>
    by_cases hl : f.upvalues.length = 256 <;> simp [hl]

/-- `resolveUpvalue` never touches the locals of the frame it resolves
for (it only marks locals in *enclosing* frames). -/
theorem resolveUp_curLocals (cur : Frame) (encl : List Frame) (name : String) :
    (resolveUpvalueM cur encl name).2.1.locals = cur.locals := by
  cases encl with
  | nil => rfl
  | cons e rest =>
    unfold resolveUpvalueM
    cases hlm : lastMatch name e.locals 0 with
    | some p =>
      rcases p with ⟨l, loc⟩
      simp only [resolveLocalM, hlm]
      rcases hau : addUpvalueM cur l true ((e.locals.getD l ⟨"", 0, false, false⟩)).constant
        with ⟨i2, cur3, aerr⟩
      have hx := addUpvalue_locals cur l true ((e.locals.getD l ⟨"", 0, false, false⟩)).constant
      rw [hau] at hx
      simpa [hau] using hx
    | none =>
      simp only [resolveLocalM, hlm]
      rcases hrec : resolveUpvalueM e rest name with ⟨o, e2, rest2, err1⟩
      cases o with
      | none => simp [hrec]
      | some u =>
        simp only [hrec]
        rcases hau : addUpvalueM cur u false ((e2.upvalues.getD u ⟨0, false, false⟩)).constant
          with ⟨i2, cur3, aerr⟩
        have hx := addUpvalue_locals cur u false ((e2.upvalues.getD u ⟨0, false, false⟩)).constant
        rw [hau] at hx
        simpa [hau] using hx

/-- Claim C6: (idempotence) `addUpvalue` called with an `(index, isLocal)`
pair already present returns the first existing entry's index and leaves
the frame — in particular its upvalue count — unchanged, reporting no
error; (flattening) every successful error-free `resolveUpvalue` leaves
the chain in the `UpChain` shape: the originating local in the declaring
enclosing frame is marked upvalue-captured, and each function from the
declaring frame down to the resolving one holds an upvalue entry chaining
to its parent, with `isLocal = true` exactly in the function directly
inside the declaring one. -/
theorem c6_upvalue_chain_and_idempotent :
    (∀ (f : Frame) (idx : Nat) (isl c : Bool) (i0 : Nat),
        findPairIdx idx isl f.upvalues = some i0 →
        addUpvalueM f idx isl c = (i0, f, false)) ∧
    (∀ (encl : List Frame) (cur : Frame) (name : String) (i : Nat)
        (cur2 : Frame) (encl2 : List Frame),
        resolveUpvalueM cur encl name = (some i, cur2, encl2, false) →
        UpChain name cur2 encl2 i) := by
  constructor
  · intro f idx isl c i0 h
    unfold addUpvalueM
    rw [h]
  · intro encl
    induction encl with
    | nil =>
      intro cur name i cur2 encl2 h
      simp [resolveUpvalueM] at h
    | cons e rest ih =>
      intro cur name i cur2 encl2 h
      unfold resolveUpvalueM at h
      cases hlm : lastMatch name e.locals 0 with
      | some p =>
        rcases p with ⟨l, loc⟩
        simp only [resolveLocalM, hlm] at h
        rcases hau : addUpvalueM cur l true ((e.locals.getD l ⟨"", 0, false, false⟩)).constant
          with ⟨i2, cur3, aerr⟩
        simp only [hau] at h
        obtain ⟨h1, h2, h3, h4⟩ :
            i2 = i ∧ cur3 = cur2 ∧
              ({ e with locals := setLocalCaptured e.locals l } : Frame) :: rest = encl2 ∧
              aerr = false := by
          simpa using h
        subst h1; subst h2; subst h4
        rw [← h3]
        obtain ⟨c2, hc2⟩ := addUpvalue_entry hau
        have hmark := lastMatch_mark name e.locals 0 l loc hlm
        simp only [Nat.sub_zero] at hmark
        exact UpChain.direct cur3 _ rest i2 l _ c2 hmark rfl hc2
      | none =>
        simp only [resolveLocalM, hlm] at h
        rcases hrec : resolveUpvalueM e rest name with ⟨o, e2, rest2, err1⟩
        simp only [hrec] at h
        cases o with
        | none => simp at h
        | some u =>
          rcases hau : addUpvalueM cur u false ((e2.upvalues.getD u ⟨0, false, false⟩)).constant
            with ⟨i2, cur3, aerr⟩
          simp only [hau] at h
          obtain ⟨h1, h2, h3, h4, h5⟩ :
              i2 = i ∧ cur3 = cur2 ∧ e2 :: rest2 = encl2 ∧ err1 = false ∧ aerr = false := by
            simp only [Prod.mk.injEq, Option.some.injEq] at h
            refine ⟨h.1, h.2.1, h.2.2.1, ?_, ?_⟩
            · have := h.2.2.2
              cases err1 <;> simp_all
            · have := h.2.2.2
              cases aerr <;> simp_all
          subst h1; subst h2; subst h4; subst h5
          rw [← h3]
          obtain ⟨c2, hc2⟩ := addUpvalue_entry hau
          have hlocals : e2.locals = e.locals := by
            have hx := resolveUp_curLocals e rest name
            rw [hrec] at hx
            exact hx
          exact UpChain.thru cur3 e2 rest2 i2 u c2 (by rw [hlocals]; exact hlm)
            (ih e name u e2 rest2 (by rw [hrec])) hc2

/-- Witness for C6 at a concrete three-deep chain (the current function,
one intermediate, and the declaring frame holding local `a`), plus a
concrete idempotent `addUpvalue` call. -/
theorem c6_upvalue_chain_and_idempotent_witness :
    addUpvalueM ⟨[], [⟨3, true, false⟩, ⟨5, false, true⟩]⟩ 5 false false =
      (1, ⟨[], [⟨3, true, false⟩, ⟨5, false, true⟩]⟩, false) ∧
    UpChain "a" ⟨[slot0], [⟨0, false, false⟩]⟩
      [⟨[slot0], [⟨1, true, false⟩]⟩, ⟨[slot0, ⟨"a", 1, true, false⟩], []⟩] 0 :=
  ⟨c6_upvalue_chain_and_idempotent.1 ⟨[], [⟨3, true, false⟩, ⟨5, false, true⟩]⟩
      5 false false 1 (by decide),
   c6_upvalue_chain_and_idempotent.2
      [⟨[slot0], []⟩, ⟨[slot0, ⟨"a", 1, false, false⟩], []⟩]
      ⟨[slot0], []⟩ "a" 0
      ⟨[slot0], [⟨0, false, false⟩]⟩
      [⟨[slot0], [⟨1, true, false⟩]⟩, ⟨[slot0, ⟨"a", 1, true, false⟩], []⟩]
      (by decide)⟩

end OolongC
